import Mathlib

/-!
Verification of the registry storage and query layer.

The development shallowly embeds the Go service layer (`service.go`), the
v0 HTTP handlers (`search.go`, `publish_oss.go`) and the ephemeral-token
scheme (`auth/service.go`).  The backing document database (MongoDB or the
in-memory store) is not part of the analysed sources, so database calls are
abstracted as explicit function parameters, and the database's filter
evaluation semantics is modelled from the spec where a claim needs it.
-/

/-! ## Record model (package `model`, reconstructed from its uses) -/

structure Repository where
  url : String
  source : String
  id : String
deriving DecidableEq

structure VersionDetail where
  version : String
  releaseDate : String
  isLatest : Bool
deriving DecidableEq

structure Package where
  registryName : String
  name : String
  version : String
deriving DecidableEq

structure Server where
  id : String
  name : String
  description : String
  repository : Repository
  versionDetail : VersionDetail
deriving DecidableEq

structure ServerDetail where
  server : Server
  packages : List Package
deriving DecidableEq

/-! ## MongoFilter documents

The Go services build a `map[string]interface{}` holding at most the keys
`$text`, `packages.registry_name`, `repository.url` and `$or` (the `$or`
value is always the same three-clause case-insensitive regex disjunction
over one escaped pattern, so it is represented by that pattern). -/

structure MongoFilter where
  text : Option String
  registryName : Option String
  url : Option String
  orRegex : Option String
deriving DecidableEq

/-! ## `regexp.QuoteMeta` and literal regex patterns

`escapeRegex` in `service.go` is exactly Go's `regexp.QuoteMeta`, which
prefixes every occurrence of a byte from `\.+*?()|[]{}^$` with a
backslash. -/

def isRegexSpecial (c : Char) : Bool :=
  c = '\\' || c = '.' || c = '+' || c = '*' || c = '?' || c = '(' || c = ')' ||
  c = '|' || c = '[' || c = ']' || c = '\x7b' || c = '\x7d' || c = '^' || c = '$'

def quoteMetaChars : List Char → List Char
  | [] => []
  | c :: rest =>
    if isRegexSpecial c then '\\' :: c :: quoteMetaChars rest
    else c :: quoteMetaChars rest

/-- Function `escapeRegex` from `service.go`: `regexp.QuoteMeta`. -/
def escapeRegex (input : String) : String :=
  ⟨quoteMetaChars input.data⟩

/-- A lexed regex pattern element: a literal character, or an unescaped
metacharacter (which a regex engine would interpret as an operator). -/
inductive RegexToken where
  | lit (c : Char)
  | meta (c : Char)
deriving DecidableEq

/-- Lex a regex pattern: a backslash followed by a metacharacter yields that
character as a literal; an unescaped metacharacter yields an operator token;
any other character is a literal.  Escapes of non-metacharacters (character
classes such as a digit class) are outside the modelled fragment. -/
def tokenize : List Char → Option (List RegexToken)
  | [] => some []
  | c :: rest =>
    if c = '\\' then
      match rest with
      | [] => none
      | d :: rest2 =>
        if isRegexSpecial d then (tokenize rest2).map (RegexToken.lit d :: ·) else none
    else if isRegexSpecial c then (tokenize rest).map (RegexToken.meta c :: ·)
    else (tokenize rest).map (RegexToken.lit c :: ·)

/-- The literal word denoted by an operator-free token list. -/
def literalsOf : List RegexToken → Option (List Char)
  | [] => some []
  | RegexToken.lit c :: ts => (literalsOf ts).map (c :: ·)
  | RegexToken.meta _ :: _ => none

/-- Case-folded prefix test: does pattern `p` literally match the beginning
of `s`, ignoring case? -/
def prefixMatchCI : List Char → List Char → Bool
  | [], _ => true
  | _ :: _, [] => false
  | p :: ps, c :: cs => (p.toLower = c.toLower) && prefixMatchCI ps cs

/-- Unanchored case-folded literal search: does pattern `p` occur literally
somewhere in `s`, ignoring case? -/
def searchCI (p : List Char) : List Char → Bool
  | [] => prefixMatchCI p []
  | c :: cs => prefixMatchCI p (c :: cs) || searchCI p cs

/-- Modelled from the spec: the backing database's case-insensitive
unanchored `$regex` matcher (`"$options": "i"`), restricted to patterns
whose tokens are all literals; patterns containing operator tokens are
outside the modelled fragment (`none`). -/
def mongoRegexSearchCI (pattern s : String) : Option Bool :=
  match tokenize pattern.data with
  | none => none
  | some ts => (literalsOf ts).map (fun lits => searchCI lits s.data)

/-- The spec's own words for the fallback semantics: a case-insensitive
literal-substring test. -/
def substringCI (q s : String) : Bool :=
  decide ((q.data.map Char.toLower) <:+: (s.data.map Char.toLower))

/-! ## Full-text search, modelled from the spec

"Full-text search treats `query` as a sequence of words; it matches
documents containing those words regardless of order or case" — words are
maximal alphanumeric runs, compared case-folded; a document matches when
some query word occurs among its words. -/

def splitWordsAux : List Char → List Char → List String
  | [], acc => if acc.isEmpty then [] else [⟨acc.reverse⟩]
  | c :: cs, acc =>
    if c.isAlphanum then splitWordsAux cs (c.toLower :: acc)
    else if acc.isEmpty then splitWordsAux cs []
    else ⟨acc.reverse⟩ :: splitWordsAux cs []

def splitWords (s : String) : List String :=
  splitWordsAux s.data []

/-- Modelled from the spec: native text-index word match of a query against
one indexed field. -/
def textWordMatch (q doc : String) : Bool :=
  (splitWords q).any (fun w => (splitWords doc).contains w)

/-- Modelled from the spec: MongoDB filter-document evaluation over one
stored `ServerDetail`.  All top-level keys of the filter document are
conjoined by logical AND; `$text` is a word match over the text-indexed
fields (name, description, package names); `packages.registry_name` and
`repository.url` are exact equality; `$or` is the three-clause
case-insensitive regex disjunction over name, description and package
names. -/
def mongoMatchDetail (f : MongoFilter) (d : ServerDetail) : Bool :=
  (match f.text with
   | none => true
   | some q =>
     textWordMatch q d.server.name || textWordMatch q d.server.description ||
     d.packages.any (fun p => textWordMatch q p.name)) &&
  (match f.registryName with
   | none => true
   | some rn => d.packages.any (fun p => p.registryName = rn)) &&
  (match f.url with
   | none => true
   | some u => d.server.repository.url = u) &&
  (match f.orRegex with
   | none => true
   | some pat =>
     (mongoRegexSearchCI pat d.server.name).getD false ||
     (mongoRegexSearchCI pat d.server.description).getD false ||
     d.packages.any (fun p => (mongoRegexSearchCI pat p.name).getD false))

/-! ## The service layer (`registryServiceImpl`, `service.go`)

The `database.Database` dependency is abstracted: a list/list-details call
is a function of the (possibly nil) filter document, the cursor and the
limit, returning either an error or a page plus next cursor. -/

abbrev DbList := Option MongoFilter → String → Int → Except String (List Server × String)

abbrev DbListDetails := Option MongoFilter → String → Int → Except String (List ServerDetail × String)

/-- Modelled from the spec: the `database` package's `ErrInvalidInput`
sentinel error (the package itself is not among the analysed sources). -/
def errInvalidInput : String := "invalid input"

/-- The limit-defaulting step shared by `List`, `Search` and
`SearchDetails`: "If limit is not set or negative, use a default limit". -/
def effLimit (limit : Int) : Int :=
  if limit ≤ 0 then 30 else limit

namespace Registry

/-- Method `GetAll` from `service.go`: a single `db.List` call with nil filter,
empty cursor and limit 30; the returned next cursor is discarded. -/
def getAll (db : DbList) : Except String (List Server) :=
  (db none "" 30).map (fun r => r.1)

/-- Method `List` from `service.go`. -/
def list (db : DbList) (cursor : String) (limit : Int) :
    Except String (List Server × String) :=
  db none cursor (effLimit limit)

/-- Method `Publish` from `service.go`, with the backing store's state made
explicit so that "the database was not touched" is expressible.  A nil
`*model.ServerDetail` is `none`. -/
def publish {σ : Type} (dbPublish : ServerDetail → σ → Except String Unit × σ)
    (serverDetail : Option ServerDetail) (st : σ) : Except String Unit × σ :=
  match serverDetail with
  | none => (Except.error errInvalidInput, st)
  | some d => dbPublish d st

/-- The filter map built by both `Search` and `SearchDetails`. -/
def buildSearchFilter (query registryName url : String) : MongoFilter :=
  { text := if query = "" then none else some query,
    registryName := if registryName = "" then none else some registryName,
    url := if url = "" then none else some url,
    orRegex := none }

/-- The fallback mutation in `SearchDetails`: remove the `$text` key and add
the `$or` regex disjunction over the escaped query. -/
def fallbackFilter (f : MongoFilter) (query : String) : MongoFilter :=
  { f with text := none, orRegex := some (escapeRegex query) }

/-- Method `Search` from `service.go`: one `db.List` call on the built filter.  It
has no fallback phase. -/
def search (db : DbList) (query registryName url cursor : String) (limit : Int) :
    Except String (List Server × String) :=
  db (some (buildSearchFilter query registryName url)) cursor (effLimit limit)

/-- Method `SearchDetails` from `service.go`: a `db.ListDetails` call on the built
filter and, when it succeeds with zero entries and the query is non-empty, a
retry on the fallback filter. -/
def searchDetails (db : DbListDetails) (query registryName url cursor : String)
    (limit : Int) : Except String (List ServerDetail × String) :=
  match db (some (buildSearchFilter query registryName url)) cursor (effLimit limit) with
  | Except.error e => Except.error e
  | Except.ok (entries, nextCursor) =>
    if entries.isEmpty && !(query = "") then
      db (some (fallbackFilter (buildSearchFilter query registryName url) query))
        cursor (effLimit limit)
    else Except.ok (entries, nextCursor)

end Registry

/-! ## The v0 search handler (`SearchHandler`)

`strconv.Atoi` is modelled syntactically (an optional sign followed by
decimal digits); `url.ParseRequestURI` and `uuid.Parse`, both external
library calls, are abstracted as boolean validity predicates. -/

def digitsValAux : List Char → Nat → Option Nat
  | [], acc => some acc
  | c :: cs, acc =>
    if c.isDigit then digitsValAux cs (acc * 10 + (c.toNat - '0'.toNat)) else none

def digitsVal : List Char → Option Nat
  | [] => none
  | cs => digitsValAux cs 0

/-- The syntactic part of `strconv.Atoi`: an optional `+`/`-` sign followed
by at least one decimal digit, else an error. -/
def goAtoiRaw (s : String) : Option Int :=
  match s.data with
  | [] => none
  | c :: rest =>
    if c = '+' then (digitsVal rest).map (fun n => (n : Int))
    else if c = '-' then (digitsVal rest).map (fun n => -(n : Int))
    else (digitsVal (c :: rest)).map (fun n => (n : Int))

/-- Go `strconv.Atoi` on a 64-bit platform: parse an optional sign followed
by at least one decimal digit, failing with a range error (which the caller
sees as an ordinary parse error) when the value does not fit in a signed
64-bit int. -/
def goAtoi (s : String) : Option Int :=
  match goAtoiRaw s with
  | none => none
  | some v => if v < -(2 ^ 63) ∨ 2 ^ 63 - 1 < v then none else some v

/-- The handler's limit logic: absent means 30; a parse failure or a
non-positive value is a bad request; values above 100 are capped to 100. -/
def parseLimitParam (limitStr : String) : Except String Int :=
  if limitStr = "" then Except.ok 30
  else
    match goAtoi limitStr with
    | none => Except.error "Invalid limit parameter"
    | some v =>
      if v ≤ 0 then Except.error "Limit must be greater than 0"
      else if 100 < v then Except.ok 100
      else Except.ok v

inductive SearchResponse where
  | badRequest (msg : String)
  | internalError (msg : String)
  | okPage (servers : List ServerDetail) (nextCursor : String)
deriving DecidableEq

/-- Handler `SearchHandler` (the revision calling `SearchDetails`), from the query
parameters on: validate the URL parameter, validate the cursor as a UUID,
resolve the limit, then query the registry service.  The second component
records the limit passed to the service, `none` when the store was never
queried. -/
def searchHandlerCore (validURL uuidOk : String → Bool) (db : DbListDetails)
    (query registryName urlParam cursor limitStr : String) :
    SearchResponse × Option Int :=
  if !(urlParam = "") && !(validURL urlParam) then
    (SearchResponse.badRequest "Invalid URL parameter", none)
  else if !(cursor = "") && !(uuidOk cursor) then
    (SearchResponse.badRequest "Invalid cursor parameter", none)
  else
    match parseLimitParam limitStr with
    | Except.error msg => (SearchResponse.badRequest msg, none)
    | Except.ok limit =>
      match Registry.searchDetails db query registryName urlParam cursor limit with
      | Except.error e => (SearchResponse.internalError e, some limit)
      | Except.ok (servers, nextCursor) =>
        (SearchResponse.okPage servers nextCursor, some limit)

/-! ## The OSS publish handler (`PublishOSSHandler`)

Modelled from the existing-name check on (method, auth, body and package
validation precede it and do not touch the registry).  GitHub repository
lookup and server-id generation are abstracted as supplied results; the
store's `Publish` outcome is a function of the constructed detail, `none`
meaning success and `some msg` the Go error message. -/

structure RepoInfo where
  description : String
  htmlURL : String
  id : Int
deriving DecidableEq

/-- Go `strings.Contains`. -/
def strContains (s sub : String) : Bool :=
  decide (sub.data <:+: s.data)

inductive OssResponse where
  | conflictMsg (msg : String)
  | badRequest (msg : String)
  | internalError (msg : String)
  | created (id name : String)
deriving DecidableEq

def ossStatusCode : OssResponse → Nat
  | OssResponse.conflictMsg _ => 409
  | OssResponse.badRequest _ => 400
  | OssResponse.internalError _ => 500
  | OssResponse.created _ _ => 201

/-- The `ServerDetail` the handler constructs from the GitHub repository
information. -/
def mkOssServerDetail (serverID owner repo : String) (info : RepoInfo)
    (releaseDate : String) (packages : List Package) : ServerDetail :=
  { server :=
      { id := serverID,
        name := "io.github." ++ owner ++ "/" ++ repo,
        description := info.description,
        repository := { url := info.htmlURL, source := "github", id := toString info.id },
        versionDetail :=
          { version := "1.0.0-oss", releaseDate := releaseDate, isLatest := true } },
    packages := packages }

/-- Handler `PublishOSSHandler` from the pre-publish existence check on.  The second
component records whether `registry.Publish` was invoked. -/
def publishOSSCore (db : DbList) (owner repo : String)
    (repoInfo : Except String RepoInfo) (serverID : Except String String)
    (publishErr : ServerDetail → Option String) (releaseDate : String)
    (packages : List Package) : OssResponse × Bool :=
  let expectedServerName := "io.github." ++ owner ++ "/" ++ repo
  match Registry.search db expectedServerName "" "" "" 1 with
  | Except.error e =>
    (OssResponse.internalError ("Failed to check existing servers: " ++ e), false)
  | Except.ok (existingServers, _) =>
    if existingServers.any (fun s => s.name = expectedServerName) then
      (OssResponse.conflictMsg
        ("A server with name '" ++ expectedServerName ++
          "' has already been published to the registry"), false)
    else
      match repoInfo with
      | Except.error e =>
        (OssResponse.badRequest ("Failed to fetch repository information: " ++ e), false)
      | Except.ok info =>
        match serverID with
        | Except.error _ => (OssResponse.internalError "Failed to generate server ID", false)
        | Except.ok sid =>
          let detail := mkOssServerDetail sid owner repo info releaseDate packages
          match publishErr detail with
          | some e =>
            if strContains e "invalid version" then
              (OssResponse.badRequest ("Failed to publish server details: " ++ e), true)
            else if strContains e "already exists" then
              (OssResponse.conflictMsg "Server already exists in registry", true)
            else
              (OssResponse.internalError ("Failed to publish server details: " ++ e), true)
          | none => (OssResponse.created sid detail.server.name, true)

/-! ## Ephemeral tokens (`auth/service.go`)

`generateEphemeralToken` signs the JSON serialization of the claims with
HMAC-SHA256 under a fixed secret and `validateEphemeralToken` recomputes
that signature over the received claims and compares, then checks expiry.
The composition of JSON serialization and keyed HMAC-SHA256 is a fixed
deterministic function of the claims and is abstracted as `sign`; times are
seconds. -/

structure EphemeralTokenClaims where
  gitHubUserID : String
  gitHubUsername : String
  issuedAt : Nat
  expiresAt : Nat
  nonce : String
deriving DecidableEq

structure EphemeralToken where
  claims : EphemeralTokenClaims
  signature : String
deriving DecidableEq

/-- Method `generateEphemeralToken`: build the claims from the user, the current
time and the duration, and sign them. -/
def generateEphemeralToken (sign : EphemeralTokenClaims → String)
    (githubUserID githubUsername : String) (now duration : Nat) (nonce : String) :
    EphemeralToken :=
  let claims : EphemeralTokenClaims :=
    { gitHubUserID := githubUserID, gitHubUsername := githubUsername,
      issuedAt := now, expiresAt := now + duration, nonce := nonce }
  { claims := claims, signature := sign claims }

/-- Method `validateEphemeralToken`: recompute the signature over the received
claims, compare with the carried signature, then reject expired tokens
(`time.Now().After(ExpiresAt)`). -/
def validateEphemeralToken (sign : EphemeralTokenClaims → String) (now : Nat)
    (token : EphemeralToken) : Option EphemeralTokenClaims :=
  if !(token.signature = sign token.claims) then none
  else if token.claims.expiresAt < now then none
  else some token.claims

/-! ## A concrete one-record store

Used to exhibit concrete behaviours: a store holding a single record whose
name contains the query only inside a compound word, served through the
spec-modelled filter evaluator. -/

def exampleDetail : ServerDetail :=
  { server :=
      { id := "11111111-1111-1111-1111-111111111111",
        name := "my-filesystem-tool",
        description := "A tool",
        repository :=
          { url := "https://github.com/acme/my-filesystem-tool", source := "github",
            id := "1" },
        versionDetail :=
          { version := "1.0.0", releaseDate := "2025-01-01T00:00:00Z", isLatest := true } },
    packages := [] }

/-- A `ListDetails` database over a fixed record list: evaluate the filter
document on every record and return the page. -/
def storeDbDetails (store : List ServerDetail) : DbListDetails := fun f _ l =>
  Except.ok
    ((match f with
      | none => store
      | some flt => store.filter (mongoMatchDetail flt)).take l.toNat, "")

/-- The corresponding `List` database returning summaries. -/
def storeDbList (store : List ServerDetail) : DbList := fun f c l =>
  (storeDbDetails store f c l).map (fun r => (r.1.map (fun d => d.server), r.2))

/-- A record as the OSS publish handler would have created it for
`github.com/acme/tool`, used to exercise the duplicate-name path. -/
def ossExampleDetail : ServerDetail :=
  mkOssServerDetail "22222222-2222-2222-2222-222222222222" "acme" "tool"
    { description := "demo", htmlURL := "https://github.com/acme/tool", id := 7 }
    "2025-01-01T00:00:00Z" []

/-- The claims record `generateEphemeralToken` builds for a user at a given
time and duration. -/
def mkClaims (uid uname : String) (now duration : Nat) (nonce : String) :
    EphemeralTokenClaims :=
  { gitHubUserID := uid, gitHubUsername := uname, issuedAt := now,
    expiresAt := now + duration, nonce := nonce }

/-! ## Theorems -/

/-- C10: the service-layer `Publish` called with a nil `ServerDetail`
returns `ErrInvalidInput` without invoking the backing database's
`Publish`, leaving the stored record set unchanged. -/
theorem publish_nil_invalid_input (σ : Type)
    (dbPublish : ServerDetail → σ → Except String Unit × σ) (st : σ) :
    Registry.publish dbPublish none st = (Except.error errInvalidInput, st) := rfl

/-- C5: `List`, `Search` and `SearchDetails` substitute the default limit 30
for a zero or negative limit before querying the backing database. -/
theorem nonpositive_limit_defaults_to_30 (db : DbList) (dbd : DbListDetails)
    (q rn u c : String) (l : Int) (hl : l ≤ 0) :
    effLimit l = 30 ∧
    Registry.list db c l = Registry.list db c 30 ∧
    Registry.search db q rn u c l = Registry.search db q rn u c 30 ∧
    Registry.searchDetails dbd q rn u c l = Registry.searchDetails dbd q rn u c 30 := by
  have he : effLimit l = 30 := by simp [effLimit, hl]
  have he30 : effLimit 30 = 30 := by norm_num [effLimit]
  refine ⟨he, ?_, ?_, ?_⟩ <;>
    simp only [Registry.list, Registry.search, Registry.searchDetails, he, he30]

theorem nonpositive_limit_defaults_to_30_witness :
    effLimit (-5) = 30 ∧
    Registry.list (storeDbList []) "" (-5) = Registry.list (storeDbList []) "" 30 ∧
    Registry.search (storeDbList []) "file" "" "" "" (-5) =
      Registry.search (storeDbList []) "file" "" "" "" 30 ∧
    Registry.searchDetails (storeDbDetails []) "file" "" "" "" (-5) =
      Registry.searchDetails (storeDbDetails []) "file" "" "" "" 30 :=
  nonpositive_limit_defaults_to_30 (storeDbList []) (storeDbDetails [])
    "file" "" "" "" (-5) (by norm_num)

/-- C8: `GetAll` delegates to `List` with a nil filter, an empty cursor and
the fixed limit 30, discarding the returned next cursor; consequently, for
any backing database that honours its limit argument, `GetAll` returns at
most 30 entries regardless of how many records are stored. -/
theorem getAll_returns_first_page_only (db : DbList) :
    Registry.getAll db = (db none "" 30).map Prod.fst ∧
    ((∀ f c l page nc, db f c l = Except.ok (page, nc) → page.length ≤ l.toNat) →
      ∀ entries, Registry.getAll db = Except.ok entries → entries.length ≤ 30) := by
  refine ⟨rfl, ?_⟩
  intro hdb entries hga
  unfold Registry.getAll at hga
  cases hres : db none "" 30 with
  | error e => rw [hres] at hga; simp [Except.map] at hga
  | ok r =>
    rw [hres] at hga
    obtain ⟨page, nc⟩ := r
    simp only [Except.map, Except.ok.injEq] at hga
    subst hga
    simpa using hdb none "" 30 page nc hres

theorem getAll_returns_first_page_only_witness :
    Registry.getAll (storeDbList [exampleDetail]) =
      ((storeDbList [exampleDetail]) none "" 30).map Prod.fst ∧
    ∀ entries, Registry.getAll (storeDbList [exampleDetail]) = Except.ok entries →
      entries.length ≤ 30 := by
  have h := getAll_returns_first_page_only (storeDbList [exampleDetail])
  refine ⟨h.1, h.2 ?_⟩
  intro f c l page nc hdb
  simp only [storeDbList, storeDbDetails, Except.map, Except.ok.injEq, Prod.mk.injEq] at hdb
  obtain ⟨hpage, _⟩ := hdb
  subst hpage
  simp [List.length_take_le]

/-- C9: validating an ephemeral token generated with the same HMAC secret
succeeds before the expiry time and returns exactly the signed claims, and
a token whose claims were altered after signing (so that their signature
differs - HMAC-SHA256 collision freeness) fails signature verification. -/
theorem ephemeral_token_roundtrip (sign : EphemeralTokenClaims → String)
    (uid uname nonce : String) (now duration now2 : Nat)
    (_hd : 0 < duration) (hnow : now2 ≤ now + duration) :
    validateEphemeralToken sign now2
        (generateEphemeralToken sign uid uname now duration nonce) =
      some (mkClaims uid uname now duration nonce) ∧
    ∀ claims2 : EphemeralTokenClaims,
      sign claims2 ≠ sign (mkClaims uid uname now duration nonce) →
      validateEphemeralToken sign now2
          { claims := claims2,
            signature :=
              (generateEphemeralToken sign uid uname now duration nonce).signature } =
        none := by
  constructor
  · unfold validateEphemeralToken generateEphemeralToken mkClaims
    simp [Nat.not_lt.mpr hnow]
  · intro claims2 hne
    unfold validateEphemeralToken generateEphemeralToken
    unfold mkClaims at hne
    have hcond : ¬ (sign
        { gitHubUserID := uid, gitHubUsername := uname, issuedAt := now,
          expiresAt := now + duration, nonce := nonce } = sign claims2) :=
      fun h => hne h.symm
    simp [hcond]

theorem ephemeral_token_roundtrip_witness :
    validateEphemeralToken (fun c => c.gitHubUsername) 200
        (generateEphemeralToken (fun c => c.gitHubUsername) "42" "alice" 100 3600 "n") =
      some (mkClaims "42" "alice" 100 3600 "n") ∧
    validateEphemeralToken (fun c => c.gitHubUsername) 200
        { claims := { gitHubUserID := "42", gitHubUsername := "mallory", issuedAt := 100,
                      expiresAt := 3700, nonce := "n" },
          signature :=
            (generateEphemeralToken (fun c => c.gitHubUsername) "42" "alice" 100 3600
              "n").signature } =
      none := by
  have h := ephemeral_token_roundtrip (fun c => c.gitHubUsername) "42" "alice" "n"
    100 3600 200 (by norm_num) (by norm_num)
  exact ⟨h.1, h.2 _ (by decide)⟩

/-- C1 is refuted on the code: with a one-record store whose record is named
`my-filesystem-tool`, the full-text phase for query `file` returns zero
results and the fallback filter would return the record, yet `Search`
returns the empty page — only `SearchDetails` performs the fallback
retry. -/
theorem search_no_fallback_counterexample :
    (storeDbList [exampleDetail]) (some (Registry.buildSearchFilter "file" "" "")) "" 30 =
      Except.ok ([], "") ∧
    (storeDbList [exampleDetail])
        (some (Registry.fallbackFilter (Registry.buildSearchFilter "file" "" "") "file"))
        "" 30 =
      Except.ok ([exampleDetail.server], "") ∧
    Registry.search (storeDbList [exampleDetail]) "file" "" "" "" 30 =
      Except.ok ([], "") ∧
    Registry.searchDetails (storeDbDetails [exampleDetail]) "file" "" "" "" 30 =
      Except.ok ([exampleDetail], "") := by
  refine ⟨?_, ?_, ?_, ?_⟩ <;> rfl

/-- C1 (amended): only `SearchDetails` retries with the case-insensitive
escaped-literal `$or` fallback when the full-text phase of a non-empty
query returns zero results; `Search` performs the full-text phase only and
returns its result unchanged. -/
theorem searchDetails_fallback_on_empty (db : DbList) (dbd : DbListDetails)
    (q rn u c : String) (l : Int) (nc : String)
    (hq : ¬ q = "")
    (hempty : dbd (some (Registry.buildSearchFilter q rn u)) c (effLimit l) =
      Except.ok ([], nc)) :
    Registry.searchDetails dbd q rn u c l =
      dbd (some (Registry.fallbackFilter (Registry.buildSearchFilter q rn u) q)) c
        (effLimit l) ∧
    Registry.search db q rn u c l =
      db (some (Registry.buildSearchFilter q rn u)) c (effLimit l) := by
  constructor
  · unfold Registry.searchDetails
    rw [hempty]
    simp [hq]
  · rfl

theorem searchDetails_fallback_on_empty_witness :
    Registry.searchDetails (storeDbDetails [exampleDetail]) "file" "" "" "" 30 =
      (storeDbDetails [exampleDetail])
        (some (Registry.fallbackFilter (Registry.buildSearchFilter "file" "" "") "file"))
        "" (effLimit 30) ∧
    Registry.search (storeDbList [exampleDetail]) "file" "" "" "" 30 =
      (storeDbList [exampleDetail]) (some (Registry.buildSearchFilter "file" "" "")) ""
        (effLimit 30) :=
  searchDetails_fallback_on_empty (storeDbList [exampleDetail])
    (storeDbDetails [exampleDetail]) "file" "" "" "" 30 "" (by decide) rfl

/-- C3: the OSS publish handler rejects a duplicate name with HTTP 409 and
never silently overwrites or duplicates: when the pre-publish search finds
a server with the constructed name it returns 409 without ever invoking
`Publish`, and when the store's `Publish` reports an already-exists error it
returns 409. -/
theorem publish_oss_duplicate_conflict (db : DbList) (owner repo : String)
    (repoInfo : Except String RepoInfo) (serverID : Except String String)
    (publishErr : ServerDetail → Option String) (releaseDate : String)
    (packages : List Package) :
    (∀ servers nc,
      Registry.search db ("io.github." ++ owner ++ "/" ++ repo) "" "" "" 1 =
        Except.ok (servers, nc) →
      servers.any (fun s => s.name = "io.github." ++ owner ++ "/" ++ repo) = true →
      ossStatusCode
          (publishOSSCore db owner repo repoInfo serverID publishErr releaseDate
            packages).1 = 409 ∧
      (publishOSSCore db owner repo repoInfo serverID publishErr releaseDate
        packages).2 = false) ∧
    (∀ servers nc info sid e,
      Registry.search db ("io.github." ++ owner ++ "/" ++ repo) "" "" "" 1 =
        Except.ok (servers, nc) →
      servers.any (fun s => s.name = "io.github." ++ owner ++ "/" ++ repo) = false →
      repoInfo = Except.ok info →
      serverID = Except.ok sid →
      publishErr (mkOssServerDetail sid owner repo info releaseDate packages) = some e →
      strContains e "invalid version" = false →
      strContains e "already exists" = true →
      ossStatusCode
          (publishOSSCore db owner repo repoInfo serverID publishErr releaseDate
            packages).1 = 409) := by
  constructor
  · intro servers nc hsearch hany
    unfold publishOSSCore
    simp only [hsearch]
    simp [hany, ossStatusCode]
  · intro servers nc info sid e hsearch hany hinfo hsid hpub hiv hae
    subst hinfo
    subst hsid
    unfold publishOSSCore
    simp only [hsearch]
    simp [hany, hpub, hiv, hae, ossStatusCode]

theorem publish_oss_duplicate_conflict_witness :
    (ossStatusCode
        (publishOSSCore (storeDbList [ossExampleDetail]) "acme" "tool"
          (Except.ok { description := "demo", htmlURL := "https://github.com/acme/tool",
                       id := 7 })
          (Except.ok "33333333-3333-3333-3333-333333333333") (fun _ => none)
          "2025-01-01T00:00:00Z" []).1 = 409 ∧
      (publishOSSCore (storeDbList [ossExampleDetail]) "acme" "tool"
        (Except.ok { description := "demo", htmlURL := "https://github.com/acme/tool",
                     id := 7 })
        (Except.ok "33333333-3333-3333-3333-333333333333") (fun _ => none)
        "2025-01-01T00:00:00Z" []).2 = false) ∧
    ossStatusCode
        (publishOSSCore (storeDbList []) "acme" "tool"
          (Except.ok { description := "demo", htmlURL := "https://github.com/acme/tool",
                       id := 7 })
          (Except.ok "33333333-3333-3333-3333-333333333333")
          (fun _ => some "record already exists") "2025-01-01T00:00:00Z" []).1 = 409 := by
  constructor
  · exact (publish_oss_duplicate_conflict (storeDbList [ossExampleDetail]) "acme" "tool"
      (Except.ok { description := "demo", htmlURL := "https://github.com/acme/tool",
                   id := 7 })
      (Except.ok "33333333-3333-3333-3333-333333333333") (fun _ => none)
      "2025-01-01T00:00:00Z" []).1 [ossExampleDetail.server] "" rfl (by decide)
  · exact (publish_oss_duplicate_conflict (storeDbList []) "acme" "tool"
      (Except.ok { description := "demo", htmlURL := "https://github.com/acme/tool",
                   id := 7 })
      (Except.ok "33333333-3333-3333-3333-333333333333")
      (fun _ => some "record already exists") "2025-01-01T00:00:00Z" []).2 [] ""
      { description := "demo", htmlURL := "https://github.com/acme/tool", id := 7 }
      "33333333-3333-3333-3333-333333333333" "record already exists" rfl (by decide) rfl
      rfl rfl (by decide) (by decide)

/-- C6: the search handler uses limit 30 when no limit parameter is given,
rejects a non-numeric or non-positive limit as a bad request without
querying the store, and caps values above 100 to the fixed maximum 100. -/
theorem search_handler_limit (validURL uuidOk : String → Bool) (db : DbListDetails)
    (q rn urlParam cursor limitStr : String) (v : Int) :
    parseLimitParam "" = Except.ok 30 ∧
    (searchHandlerCore validURL uuidOk db q rn "" "" "").2 = some 30 ∧
    (¬ limitStr = "" → goAtoi limitStr = none →
      (searchHandlerCore validURL uuidOk db q rn urlParam cursor limitStr).2 = none ∧
      ∃ msg, (searchHandlerCore validURL uuidOk db q rn urlParam cursor limitStr).1 =
        SearchResponse.badRequest msg) ∧
    (goAtoi limitStr = some v → v ≤ 0 →
      (searchHandlerCore validURL uuidOk db q rn urlParam cursor limitStr).2 = none ∧
      ∃ msg, (searchHandlerCore validURL uuidOk db q rn urlParam cursor limitStr).1 =
        SearchResponse.badRequest msg) ∧
    (goAtoi limitStr = some v → 100 < v →
      (searchHandlerCore validURL uuidOk db q rn "" "" limitStr).2 = some 100) := by
  refine ⟨rfl, ?_, ?_, ?_, ?_⟩
  · unfold searchHandlerCore
    simp only [parseLimitParam]
    cases h : Registry.searchDetails db q rn "" "" 30 with
    | error e => simp [h]
    | ok r => obtain ⟨ss, nc⟩ := r; simp [h]
  · intro hne hatoi
    have hp : parseLimitParam limitStr = Except.error "Invalid limit parameter" := by
      simp [parseLimitParam, hne, hatoi]
    unfold searchHandlerCore
    by_cases h1 : (!(urlParam = "") && !(validURL urlParam)) = true
    · simp [h1]
    · by_cases h2 : (!(cursor = "") && !(uuidOk cursor)) = true
      · simp [h1, h2]
      · simp [h1, h2, hp]
  · intro hatoi hv
    have hne : ¬ limitStr = "" := by
      intro h; subst h; simp [goAtoi, goAtoiRaw] at hatoi
    have hp : parseLimitParam limitStr = Except.error "Limit must be greater than 0" := by
      simp [parseLimitParam, hne, hatoi, hv]
    unfold searchHandlerCore
    by_cases h1 : (!(urlParam = "") && !(validURL urlParam)) = true
    · simp [h1]
    · by_cases h2 : (!(cursor = "") && !(uuidOk cursor)) = true
      · simp [h1, h2]
      · simp [h1, h2, hp]
  · intro hatoi hv
    have hne : ¬ limitStr = "" := by
      intro h; subst h; simp [goAtoi, goAtoiRaw] at hatoi
    have hp : parseLimitParam limitStr = Except.ok 100 := by
      have : ¬ v ≤ 0 := by omega
      simp [parseLimitParam, hne, hatoi, this, hv]
    unfold searchHandlerCore
    simp only [hp]
    cases h : Registry.searchDetails db q rn "" "" 100 with
    | error e => simp [hp, h]
    | ok r => obtain ⟨ss, nc⟩ := r; simp [hp, h]

theorem search_handler_limit_witness :
    parseLimitParam "" = Except.ok 30 ∧
    (searchHandlerCore (fun _ => true) (fun _ => true) (storeDbDetails [])
      "q" "" "" "" "").2 = some 30 ∧
    ((searchHandlerCore (fun _ => true) (fun _ => true) (storeDbDetails [])
        "q" "" "" "" "abc").2 = none ∧
      ∃ msg, (searchHandlerCore (fun _ => true) (fun _ => true) (storeDbDetails [])
        "q" "" "" "" "abc").1 = SearchResponse.badRequest msg) ∧
    ((searchHandlerCore (fun _ => true) (fun _ => true) (storeDbDetails [])
        "q" "" "" "" "0").2 = none ∧
      ∃ msg, (searchHandlerCore (fun _ => true) (fun _ => true) (storeDbDetails [])
        "q" "" "" "" "0").1 = SearchResponse.badRequest msg) ∧
    (searchHandlerCore (fun _ => true) (fun _ => true) (storeDbDetails [])
      "q" "" "" "" "500").2 = some 100 := by
  have habc := search_handler_limit (fun _ => true) (fun _ => true) (storeDbDetails [])
    "q" "" "" "" "abc" 0
  have h0 := search_handler_limit (fun _ => true) (fun _ => true) (storeDbDetails [])
    "q" "" "" "" "0" 0
  have h500 := search_handler_limit (fun _ => true) (fun _ => true) (storeDbDetails [])
    "q" "" "" "" "500" 500
  exact ⟨habc.1, habc.2.1, habc.2.2.1 (by decide) (by decide),
    h0.2.2.2.1 (by decide) (by decide), h500.2.2.2.2 (by decide) (by decide)⟩

/-- C7: a search request with a non-empty cursor that does not parse as a
UUID is answered with a bad request and the store is never queried. -/
theorem search_handler_bad_cursor (validURL uuidOk : String → Bool)
    (db : DbListDetails) (q rn urlParam cursor limitStr : String)
    (hc : ¬ cursor = "") (hu : uuidOk cursor = false) :
    (searchHandlerCore validURL uuidOk db q rn urlParam cursor limitStr).2 = none ∧
    (∃ msg, (searchHandlerCore validURL uuidOk db q rn urlParam cursor limitStr).1 =
      SearchResponse.badRequest msg) ∧
    (urlParam = "" →
      (searchHandlerCore validURL uuidOk db q rn urlParam cursor limitStr).1 =
        SearchResponse.badRequest "Invalid cursor parameter") := by
  have h2 : (!(cursor = "") && !(uuidOk cursor)) = true := by simp [hc, hu]
  unfold searchHandlerCore
  by_cases h1 : (!(urlParam = "") && !(validURL urlParam)) = true
  · refine ⟨by simp [h1], ⟨"Invalid URL parameter", by simp [h1]⟩, ?_⟩
    intro hup
    subst hup
    simp at h1
  · exact ⟨by simp [h1, h2], ⟨"Invalid cursor parameter", by simp [h1, h2]⟩,
      fun _ => by simp [h1, h2]⟩

theorem search_handler_bad_cursor_witness :
    (searchHandlerCore (fun _ => true) (fun _ => false) (storeDbDetails [])
      "q" "" "" "not-a-uuid" "").2 = none ∧
    (∃ msg, (searchHandlerCore (fun _ => true) (fun _ => false) (storeDbDetails [])
      "q" "" "" "not-a-uuid" "").1 = SearchResponse.badRequest msg) ∧
    ("" = "" →
      (searchHandlerCore (fun _ => true) (fun _ => false) (storeDbDetails [])
        "q" "" "" "not-a-uuid" "").1 =
        SearchResponse.badRequest "Invalid cursor parameter") :=
  search_handler_bad_cursor (fun _ => true) (fun _ => false) (storeDbDetails [])
    "q" "" "" "not-a-uuid" "" (by decide) rfl

/-- C4: non-empty `registry_name` and `url` filters become exact-match
equality constraints (`packages.registry_name`, `repository.url`) conjoined
by AND with whichever text branch runs, and the `SearchDetails` regex
fallback keeps them in force, removing only the `$text` clause. -/
theorem filters_conjunctive_and_kept_in_fallback (db : DbList) (dbd : DbListDetails)
    (q rn u c : String) (l : Int) (hrn : ¬ rn = "") (hu : ¬ u = "") :
    (Registry.buildSearchFilter q rn u).registryName = some rn ∧
    (Registry.buildSearchFilter q rn u).url = some u ∧
    (Registry.fallbackFilter (Registry.buildSearchFilter q rn u) q).registryName =
      some rn ∧
    (Registry.fallbackFilter (Registry.buildSearchFilter q rn u) q).url = some u ∧
    (Registry.fallbackFilter (Registry.buildSearchFilter q rn u) q).text = none ∧
    (Registry.fallbackFilter (Registry.buildSearchFilter q rn u) q).orRegex =
      some (escapeRegex q) ∧
    Registry.search db q rn u c l =
      db (some (Registry.buildSearchFilter q rn u)) c (effLimit l) ∧
    (∀ nc, ¬ q = "" →
      dbd (some (Registry.buildSearchFilter q rn u)) c (effLimit l) =
        Except.ok ([], nc) →
      Registry.searchDetails dbd q rn u c l =
        dbd (some (Registry.fallbackFilter (Registry.buildSearchFilter q rn u) q)) c
          (effLimit l)) ∧
    (∀ d : ServerDetail,
      mongoMatchDetail (Registry.buildSearchFilter q rn u) d = true →
      d.packages.any (fun p => p.registryName = rn) = true ∧
      d.server.repository.url = u) ∧
    (∀ d : ServerDetail,
      mongoMatchDetail
          (Registry.fallbackFilter (Registry.buildSearchFilter q rn u) q) d = true →
      d.packages.any (fun p => p.registryName = rn) = true ∧
      d.server.repository.url = u) := by
  refine ⟨?_, ?_, ?_, ?_, ?_, ?_, rfl, ?_, ?_, ?_⟩
  · simp [Registry.buildSearchFilter, hrn]
  · simp [Registry.buildSearchFilter, hu]
  · simp [Registry.fallbackFilter, Registry.buildSearchFilter, hrn]
  · simp [Registry.fallbackFilter, Registry.buildSearchFilter, hu]
  · simp [Registry.fallbackFilter]
  · simp [Registry.fallbackFilter]
  · intro nc hq hempty
    unfold Registry.searchDetails
    rw [hempty]
    simp [hq]
  · intro d hmatch
    unfold mongoMatchDetail at hmatch
    simp only [Registry.buildSearchFilter, hrn, hu, if_neg, Bool.and_eq_true] at hmatch
    obtain ⟨⟨⟨_, h2⟩, h3⟩, _⟩ := hmatch
    exact ⟨by simpa using h2, by simpa using h3⟩
  · intro d hmatch
    unfold mongoMatchDetail at hmatch
    simp only [Registry.fallbackFilter, Registry.buildSearchFilter, hrn, hu, if_neg,
      Bool.and_eq_true] at hmatch
    obtain ⟨⟨⟨_, h2⟩, h3⟩, _⟩ := hmatch
    exact ⟨by simpa using h2, by simpa using h3⟩

theorem filters_conjunctive_and_kept_in_fallback_witness :
    (Registry.buildSearchFilter "file" "npm" "https://github.com/acme/x").registryName =
      some "npm" ∧
    (Registry.buildSearchFilter "file" "npm" "https://github.com/acme/x").url =
      some "https://github.com/acme/x" ∧
    (Registry.fallbackFilter
        (Registry.buildSearchFilter "file" "npm" "https://github.com/acme/x")
        "file").registryName = some "npm" := by
  have h := filters_conjunctive_and_kept_in_fallback (storeDbList [])
    (storeDbDetails []) "file" "npm" "https://github.com/acme/x" "" 30
    (by decide) (by decide)
  exact ⟨h.1, h.2.1, h.2.2.1⟩

theorem tokenize_quoteMetaChars (cs : List Char) :
    tokenize (quoteMetaChars cs) = some (cs.map RegexToken.lit) := by
  induction cs with
  | nil => rfl
  | cons c cs ih =>
    by_cases h : isRegexSpecial c
    · have hq : quoteMetaChars (c :: cs) = '\\' :: c :: quoteMetaChars cs := by
        simp [quoteMetaChars, h]
      rw [hq]
      simp [tokenize, h, ih]
    · have hc : ¬ c = '\\' := by
        intro he
        subst he
        simp [isRegexSpecial] at h
      have hq : quoteMetaChars (c :: cs) = c :: quoteMetaChars cs := by
        simp [quoteMetaChars, h]
      rw [hq, tokenize.eq_def]
      simp only [if_neg hc, if_neg h]
      rw [ih]
      rfl

theorem literalsOf_map_lit (cs : List Char) :
    literalsOf (cs.map RegexToken.lit) = some cs := by
  induction cs with
  | nil => rfl
  | cons c cs ih => simp [literalsOf, ih]

theorem prefixMatchCI_iff (p : List Char) : ∀ s : List Char,
    prefixMatchCI p s = true ↔ p.map Char.toLower <+: s.map Char.toLower := by
  induction p with
  | nil => intro s; simp [prefixMatchCI]
  | cons a p ih =>
    intro s
    cases s with
    | nil => simp [prefixMatchCI]
    | cons b s =>
      simp [prefixMatchCI, List.cons_prefix_cons, ih, Bool.and_eq_true]

theorem searchCI_iff (p : List Char) : ∀ s : List Char,
    searchCI p s = true ↔ p.map Char.toLower <:+: s.map Char.toLower := by
  intro s
  induction s with
  | nil =>
    simp [searchCI, prefixMatchCI_iff]
  | cons b s ih =>
    simp [searchCI, prefixMatchCI_iff, ih, List.infix_cons_iff, Bool.or_eq_true]

/-- C2: the fallback pattern escapes every regex metacharacter of the query
(`regexp.QuoteMeta`), so the pattern lexes to the query's characters as
plain literals — no operator tokens — and matching it case-insensitively is
exactly a case-insensitive literal-substring test of the query. -/
theorem escaped_query_matches_literally (q s : String) :
    tokenize (escapeRegex q).data = some (q.data.map RegexToken.lit) ∧
    mongoRegexSearchCI (escapeRegex q) s = some (substringCI q s) := by
  have h1 : tokenize (escapeRegex q).data = some (q.data.map RegexToken.lit) :=
    tokenize_quoteMetaChars q.data
  refine ⟨h1, ?_⟩
  unfold mongoRegexSearchCI
  rw [h1]
  simp only [literalsOf_map_lit, Option.map]
  have hiff := searchCI_iff q.data s.data
  cases hb : searchCI q.data s.data with
  | false =>
    simp only [hb, Bool.false_eq_true, false_iff] at hiff
    simp [substringCI, hiff]
  | true =>
    simp only [hb, true_iff] at hiff
    simp [substringCI, hiff]
